import Mathlib

/-!
Shallow embedding of the resource-management core of `rxcompile/resmgr`
(`src/ResManagement.h`, `src/TestData.h`, `src/TestShareds.cpp`).

Modelling conventions:

* A heap-allocated value is identified by a numeric id (its address);
  a `shared_ptr`/strong handle to a value is modelled by that id.
* `alive : Nat → Bool` tells, for a value id, whether at least one strong
  handle to it exists; a `weak_ptr` to id `v` is `expired` exactly when
  `alive v = false`.
* `Factory::m_cache` (`std::unordered_map<std::string, Resource>`) is
  modelled as an association list `Cache`.  `find`/`erase`/`operator[]`
  become first-match lookup, first-match erase, and replace-or-append.
* `boost::signals2::signal` channels are modelled as the ordered list of
  subscribed consumer ids; firing a signal delivers to exactly that list.
* Backend-adapter virtuals (`hasValidExtension`, `doLoad`, `doSave`) are a
  structure of functions.  `doLoad` writes into a freshly allocated value
  (`std::make_unique<ValueType>()`); the fresh allocation's id is passed
  to `loadInternal` as the parameter `fresh`.
* The unlocked window of `loadInternal` between its two critical sections
  (where the backend I/O runs) is modelled by a parameter
  `other : Cache → Cache`: the aggregate effect of the other threads on
  the map while the lock is not held.  Sequential execution is `other = id`.
* `destroyData` is the custom deleter wired into the `shared_ptr` built in
  `loadInternal`; the model tracks the list `freed` of value ids whose
  memory has been deallocated.  The source's `destroyData` body only
  erases a map entry and contains no `delete raw`, so the model returns
  `freed` unchanged.
-/

/-- `Factory::Resource` (ResManagement.h:97-102): a weak reference to the
cached value plus the two per-key notification channels, each modelled as
its ordered subscriber list. -/
structure Resource where
  resource : Nat
  requestReload : List Nat
  reloadDone : List Nat
deriving DecidableEq, Repr

/-- `Factory::CacheType = std::unordered_map<ResourcePathType, Resource>`. -/
abbrev Cache := List (String × Resource)

/-- The backend-adapter virtuals of `Factory` (ResManagement.h:145-149).
`doLoad` is modelled by its success flag: on success the loaded bytes live
in the fresh allocation whose id `loadInternal` receives. -/
structure Backend where
  hasValidExtension : String → Bool
  doLoad : String → Bool
  doSave : String → Nat → Bool

/-- `m_cache[path] = std::move(res)`: replace the entry at the key if
present, otherwise insert it. -/
def setEntry (k : String) (r : Resource) : Cache → Cache
  | [] => [(k, r)]
  | p :: rest => if p.1 == k then (k, r) :: rest else p :: setEntry k r rest

/-- `Factory::getFromCache` (ResManagement.h:212-227): look up the key; a
live entry yields a strong handle, a dead entry is erased and the lookup
misses.  Returns the map after the call and the optional handle. -/
def getFromCache (alive : Nat → Bool) (cache : Cache) (k : String) :
    Cache × Option Nat :=
  match cache.find? (fun p => p.1 == k) with
  | none => (cache, none)
  | some p =>
    if alive p.2.resource then (cache, some p.2.resource)
    else (cache.eraseP (fun q => q.1 == k), none)

/-- Result of `Factory::loadInternal`: the map afterwards, the returned
handle (`{}` = `none`), and whether the backend's `doLoad` was invoked. -/
structure LoadResult where
  cache : Cache
  result : Option Nat
  backendCalled : Bool
deriving DecidableEq, Repr

/-- `Factory::loadInternal` (ResManagement.h:153-189).  Extension check;
first critical section (cache probe); backend load outside the lock, with
`other` the interference of concurrent threads on the map during the I/O;
second critical section: re-check the map (double-checked pattern) and
either return the winner or install the fresh value. -/
def loadInternal (B : Backend) (alive : Nat → Bool) (fresh : Nat)
    (other : Cache → Cache) (cache : Cache) (path : String) : LoadResult :=
  if B.hasValidExtension path then
    match getFromCache alive cache path with
    | (c1, some v) => ⟨c1, some v, false⟩
    | (c1, none) =>
      if B.doLoad path then
        match getFromCache alive (other c1) path with
        | (c2, some v) => ⟨c2, some v, true⟩
        | (c2, none) => ⟨setEntry path ⟨fresh, [], []⟩ c2, some fresh, true⟩
      else ⟨c1, none, true⟩
  else ⟨cache, none, false⟩

/-- Result of `Factory::saveInternal`: the map afterwards, the returned
success flag, whether `doSave` was invoked, and the list of subscriber
callbacks fired during the call (the source fires none). -/
structure SaveResult where
  cache : Cache
  ok : Bool
  backendCalled : Bool
  fired : List Nat
deriving DecidableEq, Repr

/-- `Factory::saveInternal` (ResManagement.h:191-210): extension check,
backend save, then replace the entry with a default-constructed `Resource`
(fresh empty signals) holding a weak reference to the very handle passed
in.  No signal is fired anywhere in the body. -/
def saveInternal (B : Backend) (cache : Cache) (path : String) (data : Nat) :
    SaveResult :=
  if B.hasValidExtension path then
    if B.doSave path data then
      ⟨setEntry path ⟨data, [], []⟩ cache, true, true, []⟩
    else ⟨cache, false, true, []⟩
  else ⟨cache, false, false, []⟩

/-- `Factory::registerUser` (ResManagement.h:117-130): if an entry exists
for the key, connect the consumer to both of its channels (signals2
appends the new slot); otherwise do nothing. -/
def registerUser (cache : Cache) (k : String) (user : Nat) : Cache :=
  match cache.find? (fun p => p.1 == k) with
  | none => cache
  | some _ =>
    cache.map fun p =>
      if p.1 == k then
        (p.1, { p.2 with requestReload := p.2.requestReload ++ [user],
                         reloadDone := p.2.reloadDone ++ [user] })
      else p

/-- Firing the `requestReload` signal of the entry at `k` delivers to
exactly the subscribers connected to that entry's channel. -/
def fireRequestReload (cache : Cache) (k : String) : List Nat :=
  match cache.find? (fun p => p.1 == k) with
  | none => []
  | some p => p.2.requestReload

/-- Firing the `reloadDone` signal of the entry at `k`. -/
def fireReloadDone (cache : Cache) (k : String) : List Nat :=
  match cache.find? (fun p => p.1 == k) with
  | none => []
  | some p => p.2.reloadDone

/-- `Factory::destroyData` (ResManagement.h:229-248), the custom deleter of
load-installed handles, invoked with the raw pointer once the last strong
handle is gone (so the entry's weak reference is already expired): scan the
map for the first entry whose weak reference is dead and erase it; if none
is found, return (the "THIS IS BAD" branch).  `freed` is the set of
deallocated value ids: the body contains no `delete raw`, so it is
returned unchanged — the raw value is never deallocated. -/
def destroyData (alive : Nat → Bool) (cache : Cache) (raw : Nat)
    (freed : List Nat) : Cache × List Nat :=
  match cache.find? (fun p => !alive p.2.resource) with
  | none => (cache, freed)
  | some _ => (cache.eraseP (fun p => !alive p.2.resource), freed)

/-- Association-list lookup of the entry stored at a key. -/
def findEntry (cache : Cache) (k : String) : Option Resource :=
  (cache.find? (fun p => p.1 == k)).map Prod.snd

/-!
Embedding of the data model (`src/TestData.h`) and the aggregate consumer
`Sequence` (`src/TestShareds.cpp`).

* `ObjectData` is the polymorphic record base; the only subtype in the
  repository is `ModelObjectData`.  `ObjectData.model` is a
  `ModelObjectData` (name + payload); `ObjectData.plain` is any other
  concrete `ObjectData` — for which `runtime_cast<ModelObjectData*>`
  fails.  `Data.duration : float` is not used by any claim and floating
  point is not modelled.
* `ModelObjectInstance` keeps a reference to its record (`m_data`) and the
  bound wrapper (`m_wrapped : std::shared_ptr<ModelWrapper>`, modelled as
  an optional wrapper id, `none` = unbound/null).
* `Sequence::m_objects` is `std::vector<std::unique_ptr<ObjectInstance>>`;
  an element is `none` when the stored `unique_ptr` is null.  Operations
  that dereference a null child (`o->name()`, `o->prepareReload()`, …) are
  undefined behaviour in C++ and are modelled as `Option` failure.
-/

/-- Record hierarchy of TestData.h: `model` is `ModelObjectData`,
`plain` is an `ObjectData` whose runtime type is not recognized by
`Sequence::initFromData`'s `runtime_cast` dispatch. -/
inductive ObjectData where
  | model (name : String) (modelPayload : List Nat)
  | plain (name : String)
deriving DecidableEq, Repr

/-- `ObjectData::name`. -/
def ObjectData.name : ObjectData → String
  | .model n _ => n
  | .plain n => n

/-- `Data` (TestData.h:35-46): the vector of polymorphic records. -/
structure Data where
  objects : List ObjectData
deriving DecidableEq, Repr

/-- `ModelObjectInstance` (TestShareds.cpp:76-118): reference to its
record and the optionally bound `ModelWrapper`. -/
structure ModelObjectInstance where
  m_data : ObjectData
  m_wrapped : Option Nat
deriving DecidableEq, Repr

/-- `ModelObjectInstance::prepareReload` (TestShareds.cpp:93-98): snapshot
the currently bound wrapper (`state->wrapper = wrapper()`). -/
def ModelObjectInstance.prepareReload (o : ModelObjectInstance) : Option Nat :=
  o.m_wrapped

/-- `ModelObjectInstance::reloadFromData` (TestShareds.cpp:100-105): adopt
the new record and re-bind the captured wrapper. -/
def ModelObjectInstance.reloadFromData (st : Option Nat)
    (data : ObjectData) : ModelObjectInstance :=
  { m_data := data, m_wrapped := st }

/-- `SequenceIntermediateData.objects`: map from child name to the child's
captured intermediate state (here: the captured wrapper). -/
abbrev SequenceIntermediateData := List (String × Option Nat)

/-- `data.objects[name] = state` on the intermediate map
(`std::unordered_map::operator[]`): assign-or-insert at the name. -/
def sidInsert (k : String) (v : Option Nat) :
    SequenceIntermediateData → SequenceIntermediateData
  | [] => [(k, v)]
  | p :: rest => if p.1 == k then (k, v) :: rest else p :: sidInsert k v rest

/-- `state.objects.find(name)` on the intermediate map. -/
def sidFind (s : SequenceIntermediateData) (k : String) : Option (Option Nat) :=
  (s.find? (fun p => p.1 == k)).map Prod.snd

/-- The `Sequence` (TestShareds.cpp:169-250): shared backing `Data` and
the child list (null children possible, see `initFromData`). -/
structure Sequence where
  m_data : Data
  m_objects : List (Option ModelObjectInstance)
deriving DecidableEq, Repr

/-- `Sequence::initFromData` (TestShareds.cpp:230-245): clear the child
list, then for each record construct a `ModelObjectInstance` when the
record's runtime type is `ModelObjectData` — and push the (then null)
`instance` pointer unconditionally, so an unrecognized record contributes
a null element. -/
def Sequence.initFromData (data : Data) : List (Option ModelObjectInstance) :=
  data.objects.map fun od =>
    match od with
    | ObjectData.model _ _ => some ⟨od, none⟩
    | ObjectData.plain _ => none

/-- `Sequence::prepareReload` (TestShareds.cpp:197-205): fold the children
left to right, storing each child's captured state under its name
(`data.objects[o->name()] = o->prepareReload()`); dereferencing a null
child is undefined behaviour, modelled as `none`. -/
def Sequence.prepareReload (seq : Sequence) :
    Option SequenceIntermediateData :=
  seq.m_objects.foldlM
    (fun acc o =>
      match o with
      | some inst => some (sidInsert inst.m_data.name inst.prepareReload acc)
      | none => none)
    []

/-- `Sequence::reloadFromData` (TestShareds.cpp:207-223): rebuild the
children from the new data, then for each position look up the new child's
name in the captured state; on a hit, hand the child the captured state
together with the record at the same position; on a miss, leave the
freshly built child untouched.  Finally adopt the new data as `m_data`.
The child at position `i` was built from `data.objects[i]`, so the loop is
the zip of the rebuilt list with the record list.  A null child would be
dereferenced by `m_objects[i]->name()`: modelled as `none`. -/
def Sequence.reloadFromData (_seq : Sequence)
    (state : SequenceIntermediateData) (data : Data) : Option Sequence :=
  let rebuilt := Sequence.initFromData data
  match (rebuilt.zip data.objects).mapM
      (fun p =>
        match p.1 with
        | none => (none : Option (Option ModelObjectInstance))
        | some inst =>
          match sidFind state inst.m_data.name with
          | some st =>
            some (some (ModelObjectInstance.reloadFromData st p.2))
          | none => some (some inst)) with
  | some objs => some { m_data := data, m_objects := objs }
  | none => none

/-! ### Helper lemmas about the cache primitives -/

/-- Unfolding `getFromCache` on a missing key. -/
theorem getFromCache_of_find?_none (alive : Nat → Bool) (c : Cache)
    (k : String) (hf : c.find? (fun p => p.1 == k) = none) :
    getFromCache alive c k = (c, none) := by
  unfold getFromCache; rw [hf]

/-- Unfolding `getFromCache` on a live entry. -/
theorem getFromCache_of_live (alive : Nat → Bool) (c : Cache) (k : String)
    (p : String × Resource) (hf : c.find? (fun q => q.1 == k) = some p)
    (ha : alive p.2.resource = true) :
    getFromCache alive c k = (c, some p.2.resource) := by
  unfold getFromCache; rw [hf]; simp [ha]

/-- Unfolding `getFromCache` on a dead entry: the entry is erased and the
lookup misses. -/
theorem getFromCache_of_dead (alive : Nat → Bool) (c : Cache) (k : String)
    (p : String × Resource) (hf : c.find? (fun q => q.1 == k) = some p)
    (ha : alive p.2.resource = false) :
    getFromCache alive c k = (c.eraseP (fun q => q.1 == k), none) := by
  unfold getFromCache; rw [hf]; simp [ha]

/-- After `m_cache[k] = r`, looking up `k` finds exactly `(k, r)`. -/
theorem find?_setEntry (k : String) (r : Resource) (c : Cache) :
    (setEntry k r c).find? (fun p => p.1 == k) = some (k, r) := by
  induction c with
  | nil => simp [setEntry]
  | cons p rest ih =>
    by_cases h : p.1 == k
    · simp [setEntry, h]
    · simp [setEntry, h, List.find?_cons, ih]

/-- `findEntry` after `setEntry` at the same key. -/
theorem findEntry_setEntry (k : String) (r : Resource) (c : Cache) :
    findEntry (setEntry k r c) k = some r := by
  simp [findEntry, find?_setEntry]

/-- A cache probe that returns a handle leaves the map unchanged, the
returned id is alive, and it is the id stored in the entry at the key. -/
theorem getFromCache_hit (alive : Nat → Bool) (c : Cache) (k : String)
    (w : Nat) (h : (getFromCache alive c k).2 = some w) :
    getFromCache alive c k = (c, some w) ∧ alive w = true ∧
    ∃ r, findEntry c k = some r ∧ r.resource = w := by
  cases hf : c.find? (fun p => p.1 == k) with
  | none => rw [getFromCache_of_find?_none alive c k hf] at h; simp at h
  | some p =>
    by_cases ha : alive p.2.resource
    · rw [getFromCache_of_live alive c k p hf ha] at h
      simp only [Option.some.injEq] at h
      subst h
      exact ⟨getFromCache_of_live alive c k p hf ha, ha,
        ⟨p.2, by simp [findEntry, hf], rfl⟩⟩
    · rw [getFromCache_of_dead alive c k p hf (by simpa using ha)] at h
      simp at h

/-- A cache probe either leaves the map unchanged or merely erases the
(dead) entry stored at the probed key. -/
theorem getFromCache_fst (alive : Nat → Bool) (c : Cache) (k : String) :
    (getFromCache alive c k).1 = c ∨
    (getFromCache alive c k).1 = c.eraseP (fun q => q.1 == k) := by
  cases hf : c.find? (fun p => p.1 == k) with
  | none => rw [getFromCache_of_find?_none alive c k hf]; exact Or.inl rfl
  | some p =>
    by_cases ha : alive p.2.resource
    · rw [getFromCache_of_live alive c k p hf ha]; exact Or.inl rfl
    · rw [getFromCache_of_dead alive c k p hf (by simpa using ha)]
      exact Or.inr rfl

/-- With pairwise-distinct keys, erasing the entry at `k` leaves no entry
at `k` behind. -/
theorem find?_eraseP_key (c : Cache) (k : String)
    (hnodup : (c.map Prod.fst).Nodup) :
    (c.eraseP (fun q => q.1 == k)).find? (fun p => p.1 == k) = none := by
  induction c with
  | nil => simp
  | cons p rest ih =>
    simp only [List.map_cons, List.nodup_cons] at hnodup
    obtain ⟨hp, hrest⟩ := hnodup
    by_cases h : p.1 == k
    · have hcons : (p :: rest).eraseP (fun q => q.1 == k) = rest := by
        simp [List.eraseP_cons, h]
      rw [hcons]
      apply List.find?_eq_none.mpr
      intro x hx hpx
      have hxk : x.1 = k := by simpa using hpx
      have hpk : p.1 = k := by simpa using h
      exact hp (hpk ▸ hxk ▸ List.mem_map_of_mem Prod.fst hx)
    · have hcons : (p :: rest).eraseP (fun q => q.1 == k) =
          p :: rest.eraseP (fun q => q.1 == k) := by
        simp [List.eraseP_cons, h]
      have hstep : List.find? (fun q => q.1 == k)
          (p :: rest.eraseP (fun q => q.1 == k)) =
          List.find? (fun q => q.1 == k) (rest.eraseP (fun q => q.1 == k)) :=
        List.find?_cons_of_neg _ h
      rw [hcons, hstep]
      exact ih hrest

/-! ### Concrete fixtures used to instantiate the theorems -/

/-- A backend accepting every key, whose load and save always succeed. -/
def okBackend : Backend := ⟨fun _ => true, fun _ => true, fun _ _ => true⟩

/-- A backend accepting every key, whose load and save always fail. -/
def failBackend : Backend := ⟨fun _ => true, fun _ => false, fun _ _ => false⟩

/-- A backend rejecting every key's format. -/
def rejectBackend : Backend := ⟨fun _ => false, fun _ => true, fun _ _ => true⟩

/-- A world in which no strong handle exists. -/
def aliveNone : Nat → Bool := fun _ => false

/-- A world in which only value id 5 has a strong holder. -/
def aliveFive : Nat → Bool := fun n => n == 5

/-- A world in which only value id 3 has a strong holder. -/
def aliveThree : Nat → Bool := fun n => n == 3

/-- The interference of a concurrent winner: during the I/O window another
thread completes the same load and installs value id 3 under "a.txt". -/
def installWinner : Cache → Cache := fun c => setEntry "a.txt" ⟨3, [], []⟩ c

/-- A single cache entry for "k.txt" whose value id 7 has no strong
holders left (a dead entry). -/
def deadCacheK : Cache := [("k.txt", ⟨7, [], []⟩)]

/-! ### Claim theorems -/

/-- C10: for every key that fails the Backend Adapter's format check,
`load` returns absent without invoking the backend's `doLoad` and without
changing the cache, and `save` returns false without invoking `doSave`. -/
theorem invalid_format_rejected (B : Backend) (alive : Nat → Bool)
    (fresh : Nat) (cache : Cache) (k : String) (v : Nat)
    (hext : B.hasValidExtension k = false) :
    loadInternal B alive fresh id cache k = ⟨cache, none, false⟩ ∧
    saveInternal B cache k v = ⟨cache, false, false, []⟩ := by
  constructor
  · simp [loadInternal, hext]
  · simp [saveInternal, hext]

/-- Witness for C10: an empty cache and a backend rejecting the key. -/
theorem invalid_format_rejected_witness :
    loadInternal rejectBackend aliveNone 1 id [] "missing.ext" =
      ⟨[], none, false⟩ ∧
    saveInternal rejectBackend [] "missing.ext" 5 = ⟨[], false, false, []⟩ :=
  invalid_format_rejected rejectBackend aliveNone 1 [] "missing.ext" 5 rfl

/-- C5: a successful `save(k, v)` installs a weak reference to the very
handle `v` passed in, and an immediately following `load(k)` returns that
same in-memory instance without invoking the backend's load. -/
theorem save_then_load_returns_same_instance (B : Backend)
    (alive : Nat → Bool) (fresh : Nat) (cache : Cache) (k : String) (v : Nat)
    (hext : B.hasValidExtension k = true)
    (hsave : B.doSave k v = true)
    (halive : alive v = true) :
    (saveInternal B cache k v).ok = true ∧
    findEntry (saveInternal B cache k v).cache k = some ⟨v, [], []⟩ ∧
    loadInternal B alive fresh id (saveInternal B cache k v).cache k =
      ⟨(saveInternal B cache k v).cache, some v, false⟩ := by
  have hs : saveInternal B cache k v =
      ⟨setEntry k ⟨v, [], []⟩ cache, true, true, []⟩ := by
    simp [saveInternal, hext, hsave]
  rw [hs]
  refine ⟨rfl, findEntry_setEntry k ⟨v, [], []⟩ cache, ?_⟩
  have hget := getFromCache_of_live alive (setEntry k ⟨v, [], []⟩ cache) k
      (k, ⟨v, [], []⟩) (find?_setEntry k ⟨v, [], []⟩ cache) halive
  simp [loadInternal, hext, hget]

/-- Witness for C5: save value id 5 under "a.txt" while holding it, then
load it back. -/
theorem save_then_load_returns_same_instance_witness :
    (saveInternal okBackend [] "a.txt" 5).ok = true ∧
    findEntry (saveInternal okBackend [] "a.txt" 5).cache "a.txt" =
      some ⟨5, [], []⟩ ∧
    loadInternal okBackend aliveFive 9 id
        (saveInternal okBackend [] "a.txt" 5).cache "a.txt" =
      ⟨(saveInternal okBackend [] "a.txt" 5).cache, some 5, false⟩ :=
  save_then_load_returns_same_instance okBackend aliveFive 9 [] "a.txt" 5
    rfl rfl rfl

/-- C9: a successful `save(k, v)` fires no subscriber callbacks, and it
replaces `k`'s entry with one whose notification channels are fresh and
empty, so any consumer registered for `k` before the save is disconnected
from the entry's channels: firing either channel of the new entry delivers
to nobody. -/
theorem save_replaces_channels_fires_nothing (B : Backend) (cache : Cache)
    (k : String) (v u : Nat)
    (hext : B.hasValidExtension k = true)
    (hsave : B.doSave k v = true) :
    (saveInternal B (registerUser cache k u) k v).fired = [] ∧
    findEntry (saveInternal B (registerUser cache k u) k v).cache k =
      some ⟨v, [], []⟩ ∧
    fireRequestReload (saveInternal B (registerUser cache k u) k v).cache k
      = [] ∧
    fireReloadDone (saveInternal B (registerUser cache k u) k v).cache k
      = [] := by
  have hs : saveInternal B (registerUser cache k u) k v =
      ⟨setEntry k ⟨v, [], []⟩ (registerUser cache k u), true, true, []⟩ := by
    simp [saveInternal, hext, hsave]
  rw [hs]
  refine ⟨rfl, findEntry_setEntry _ _ _, ?_, ?_⟩
  · simp [fireRequestReload, find?_setEntry]
  · simp [fireReloadDone, find?_setEntry]

/-- Witness for C9: consumer 77 registered on an existing live entry for
"a.txt", then value id 5 is saved over it. -/
theorem save_replaces_channels_fires_nothing_witness :
    (saveInternal okBackend
        (registerUser [("a.txt", ⟨3, [], []⟩)] "a.txt" 77) "a.txt" 5).fired
      = [] ∧
    findEntry (saveInternal okBackend
        (registerUser [("a.txt", ⟨3, [], []⟩)] "a.txt" 77) "a.txt" 5).cache
        "a.txt" = some ⟨5, [], []⟩ ∧
    fireRequestReload (saveInternal okBackend
        (registerUser [("a.txt", ⟨3, [], []⟩)] "a.txt" 77) "a.txt" 5).cache
        "a.txt" = [] ∧
    fireReloadDone (saveInternal okBackend
        (registerUser [("a.txt", ⟨3, [], []⟩)] "a.txt" 77) "a.txt" 5).cache
        "a.txt" = [] :=
  save_replaces_channels_fires_nothing okBackend [("a.txt", ⟨3, [], []⟩)]
    "a.txt" 5 77 rfl rfl

/-- C8 counterexample: with a dead entry for "k.txt" in the cache, a load
whose backend fails still changes the map (the pre-I/O lookup erased the
dead entry), so the map is not "left exactly as it was before the call". -/
theorem load_failure_changes_cache :
    (loadInternal failBackend aliveNone 9 id deadCacheK "k.txt").result
      = none ∧
    (loadInternal failBackend aliveNone 9 id deadCacheK "k.txt").cache
      ≠ deadCacheK := by
  constructor
  · rfl
  · decide

/-- C8 (amended): if the backend load fails, `load` returns absent and
installs or modifies no entry — the map after the call is exactly the map
the pre-I/O lookup produced, which is the original map except that an
already-dead entry at the key may have been erased; if the backend save
fails, `save` returns false and the map is exactly unchanged. -/
theorem backend_failure_no_partial_entry (B : Backend) (alive : Nat → Bool)
    (fresh : Nat) (cache : Cache) (k : String) (v : Nat)
    (hext : B.hasValidExtension k = true) :
    ((getFromCache alive cache k).2 = none → B.doLoad k = false →
      loadInternal B alive fresh id cache k =
        ⟨(getFromCache alive cache k).1, none, true⟩ ∧
      ((getFromCache alive cache k).1 = cache ∨
       (getFromCache alive cache k).1 = cache.eraseP (fun q => q.1 == k))) ∧
    (B.doSave k v = false →
      saveInternal B cache k v = ⟨cache, false, true, []⟩) := by
  constructor
  · intro hmiss hload
    refine ⟨?_, getFromCache_fst alive cache k⟩
    cases hg : getFromCache alive cache k with
    | mk c1 r =>
      rw [hg] at hmiss
      have hr : r = none := hmiss
      subst hr
      simp [loadInternal, hext, hload, hg]
  · intro hsavefail
    simp [saveInternal, hext, hsavefail]

/-- Witness for C8 (amended): dead entry for "k.txt", failing backend. -/
theorem backend_failure_no_partial_entry_witness :
    (loadInternal failBackend aliveNone 9 id deadCacheK "k.txt" =
        ⟨(getFromCache aliveNone deadCacheK "k.txt").1, none, true⟩ ∧
      ((getFromCache aliveNone deadCacheK "k.txt").1 = deadCacheK ∨
       (getFromCache aliveNone deadCacheK "k.txt").1 =
         deadCacheK.eraseP (fun q => q.1 == "k.txt"))) ∧
    saveInternal failBackend deadCacheK "k.txt" 5 =
      ⟨deadCacheK, false, true, []⟩ :=
  ⟨(backend_failure_no_partial_entry failBackend aliveNone 9 deadCacheK
      "k.txt" 5 rfl).1 rfl rfl,
   (backend_failure_no_partial_entry failBackend aliveNone 9 deadCacheK
      "k.txt" 5 rfl).2 rfl⟩

/-- C1: if a live entry for the key exists when `load` re-enters the
critical section after its backend load, the just-loaded value is
discarded — the map is exactly the one seen on re-entry, with nothing
installed — and the returned handle is the already-cached instance found
in the entry at the key. -/
theorem load_race_returns_winner (B : Backend) (alive : Nat → Bool)
    (fresh : Nat) (other : Cache → Cache) (cache c1 : Cache) (k : String)
    (w : Nat)
    (hext : B.hasValidExtension k = true)
    (h1 : getFromCache alive cache k = (c1, none))
    (hload : B.doLoad k = true)
    (h2 : (getFromCache alive (other c1) k).2 = some w) :
    loadInternal B alive fresh other cache k = ⟨other c1, some w, true⟩ ∧
    alive w = true ∧
    ∃ r, findEntry (other c1) k = some r ∧ r.resource = w := by
  obtain ⟨hg2, halive, hr⟩ := getFromCache_hit alive (other c1) k w h2
  refine ⟨?_, halive, hr⟩
  simp [loadInternal, hext, hload, h1, hg2]

/-- Witness for C1: cold start, and a concurrent winner installs value id
3 for "a.txt" during the I/O window. -/
theorem load_race_returns_winner_witness :
    loadInternal okBackend aliveThree 9 installWinner [] "a.txt" =
      ⟨installWinner [], some 3, true⟩ ∧
    aliveThree 3 = true ∧
    ∃ r, findEntry (installWinner []) "a.txt" = some r ∧ r.resource = 3 :=
  load_race_returns_winner okBackend aliveThree 9 installWinner [] []
    "a.txt" 3 rfl rfl rfl rfl

/-- C2: when the entry stored at `k` is dead (no strong holders), a
subsequent `load(k)` erases it during the lookup, performs a fresh backend
load, returns the freshly loaded value — not the old one — and installs a
new entry for `k`; and a successful `save(k, v)` likewise replaces the
entry, so the dead entry is gone at the latest after the next load or
(successful) save for `k`. -/
theorem dead_entry_erased_and_reloaded (B : Backend) (alive : Nat → Bool)
    (fresh : Nat) (cache : Cache) (k : String) (r : Resource) (v : Nat)
    (hext : B.hasValidExtension k = true)
    (hnodup : (cache.map Prod.fst).Nodup)
    (hfind : cache.find? (fun p => p.1 == k) = some (k, r))
    (hdead : alive r.resource = false)
    (hload : B.doLoad k = true)
    (hfreshne : fresh ≠ r.resource)
    (hsave : B.doSave k v = true) :
    loadInternal B alive fresh id cache k =
      ⟨setEntry k ⟨fresh, [], []⟩ (cache.eraseP (fun q => q.1 == k)),
        some fresh, true⟩ ∧
    (loadInternal B alive fresh id cache k).result ≠ some r.resource ∧
    findEntry (loadInternal B alive fresh id cache k).cache k =
      some ⟨fresh, [], []⟩ ∧
    findEntry (saveInternal B cache k v).cache k = some ⟨v, [], []⟩ := by
  have hg1 := getFromCache_of_dead alive cache k (k, r) hfind hdead
  have hg2 := getFromCache_of_find?_none alive
      (cache.eraseP (fun q => q.1 == k)) k (find?_eraseP_key cache k hnodup)
  have hli : loadInternal B alive fresh id cache k =
      ⟨setEntry k ⟨fresh, [], []⟩ (cache.eraseP (fun q => q.1 == k)),
        some fresh, true⟩ := by
    simp [loadInternal, hext, hload, hg1, hg2]
  refine ⟨hli, ?_, ?_, ?_⟩
  · rw [hli]
    simpa using fun h => hfreshne h
  · rw [hli]
    exact findEntry_setEntry _ _ _
  · have hs : saveInternal B cache k v =
        ⟨setEntry k ⟨v, [], []⟩ cache, true, true, []⟩ := by
      simp [saveInternal, hext, hsave]
    rw [hs]
    exact findEntry_setEntry _ _ _

/-- Witness for C2: dead entry for "k.txt" (value id 7, no holders),
fresh allocation id 9, saved handle id 5. -/
theorem dead_entry_erased_and_reloaded_witness :
    loadInternal okBackend aliveNone 9 id deadCacheK "k.txt" =
      ⟨setEntry "k.txt" ⟨9, [], []⟩
        (deadCacheK.eraseP (fun q => q.1 == "k.txt")), some 9, true⟩ ∧
    (loadInternal okBackend aliveNone 9 id deadCacheK "k.txt").result
      ≠ some (7 : Nat) ∧
    findEntry (loadInternal okBackend aliveNone 9 id deadCacheK
      "k.txt").cache "k.txt" = some ⟨9, [], []⟩ ∧
    findEntry (saveInternal okBackend deadCacheK "k.txt" 5).cache "k.txt" =
      some ⟨5, [], []⟩ :=
  dead_entry_erased_and_reloaded okBackend aliveNone 9 deadCacheK "k.txt"
    ⟨7, [], []⟩ 5 rfl (by decide) rfl rfl rfl (by decide) rfl

/-- C4: if exactly one entry of the map is dead — all entries before and
after it are alive — the cleanup routine removes exactly that entry,
leaves every other entry unchanged (in order), and deallocates nothing. -/
theorem cleanup_removes_exactly_the_dead_entry (alive : Nat → Bool)
    (l1 l2 : Cache) (k : String) (r : Resource) (raw : Nat)
    (freed : List Nat)
    (h1 : ∀ p ∈ l1, alive p.2.resource = true)
    (hdead : alive r.resource = false) :
    destroyData alive (l1 ++ (k, r) :: l2) raw freed = (l1 ++ l2, freed) := by
  induction l1 with
  | nil =>
    have hpos : (fun q : String × Resource => !alive q.2.resource) (k, r)
        = true := by simp [hdead]
    have hfind : List.find? (fun q => !alive q.2.resource) ((k, r) :: l2)
        = some (k, r) := List.find?_cons_of_pos _ hpos
    have herase : List.eraseP (fun q => !alive q.2.resource) ((k, r) :: l2)
        = l2 := List.eraseP_cons_of_pos hpos
    unfold destroyData
    rw [List.nil_append, hfind, herase]
    rfl
  | cons p t ih =>
    have hp : alive p.2.resource = true := h1 p (by simp)
    have hneg : ¬((fun q : String × Resource => !alive q.2.resource) p
        = true) := by simp [hp]
    have hfstep : List.find? (fun q => !alive q.2.resource)
        (p :: (t ++ (k, r) :: l2)) =
        List.find? (fun q => !alive q.2.resource) (t ++ (k, r) :: l2) :=
      List.find?_cons_of_neg _ hneg
    have herase : List.eraseP (fun q => !alive q.2.resource)
        (p :: (t ++ (k, r) :: l2)) =
        p :: List.eraseP (fun q => !alive q.2.resource)
          (t ++ (k, r) :: l2) := List.eraseP_cons_of_neg hneg
    have iht := ih fun q hq => h1 q (by simp [hq])
    unfold destroyData at iht ⊢
    rw [List.cons_append, hfstep]
    cases hft : (t ++ (k, r) :: l2).find? (fun q => !alive q.2.resource) with
    | none =>
      have hc := List.find?_eq_none.mp hft (k, r) (by simp)
      simp [hdead] at hc
    | some x =>
      rw [hft] at iht
      have hieq : List.eraseP (fun q => !alive q.2.resource)
          (t ++ (k, r) :: l2) = t ++ l2 := congrArg Prod.fst iht
      rw [herase, hieq]
      rfl

/-- Witness for C4: entries for "a" (live id 1) and "c" (live id 3)
surround a dead entry for "b" (id 2, no holders). -/
theorem cleanup_removes_exactly_the_dead_entry_witness :
    destroyData (fun n => !(n == 2)) [("a", ⟨1, [], []⟩), ("b", ⟨2, [], []⟩),
      ("c", ⟨3, [], []⟩)] 2 [] =
      ([("a", ⟨1, [], []⟩), ("c", ⟨3, [], []⟩)], []) :=
  cleanup_removes_exactly_the_dead_entry (fun n => !(n == 2))
    [("a", ⟨1, [], []⟩)] [("c", ⟨3, [], []⟩)] "b" ⟨2, [], []⟩ 2 []
    (by decide) (by decide)

/-- C3 (code evaluation): for every cache state, raw pointer and heap, the
cleanup routine wired into a load-installed handle's destructor leaves the
set of deallocated values unchanged — it never frees the value it is
invoked for, so a cached value survives (leaks) after its last strong
handle is released, contradicting the claim that the cleanup destroys it. -/
theorem cleanup_never_deallocates (alive : Nat → Bool) (cache : Cache)
    (raw : Nat) (freed : List Nat) :
    (destroyData alive cache raw freed).2 = freed := by
  unfold destroyData
  cases cache.find? (fun p => !alive p.2.resource) <;> rfl

/-- A `Data` whose single record's runtime type is not recognized by the
rebuild dispatch. -/
def unrecognizedData : Data := ⟨[ObjectData.plain "X"]⟩

/-- A `Data` with one recognized and one unrecognized record. -/
def mixedData : Data := ⟨[ObjectData.model "M" [], ObjectData.plain "X"]⟩

/-- Whether `runtime_cast<ModelObjectData*>` succeeds on the record's
runtime type (TestShareds.cpp:238). -/
def recognized : ObjectData → Bool
  | ObjectData.model _ _ => true
  | ObjectData.plain _ => false

/-- C6: a `Sequence` with children named ["A","B"] (bound to wrappers `wA`
and `wB`), prepared for reload and reloaded against new data whose records
are named ["B","A","C"], delivers A's captured state to the new child
named "A" and B's to the new child named "B" — by name, independent of
position — gives the new child "C" no migrated state, and adopts the new
data as its backing reference. -/
theorem reload_associates_state_by_name (pa pb pa' pb' pc : List Nat)
    (wA wB : Option Nat) :
    ∃ st seq',
      Sequence.prepareReload
        ⟨⟨[ObjectData.model "A" pa, ObjectData.model "B" pb]⟩,
         [some ⟨ObjectData.model "A" pa, wA⟩,
          some ⟨ObjectData.model "B" pb, wB⟩]⟩ = some st ∧
      Sequence.reloadFromData
        ⟨⟨[ObjectData.model "A" pa, ObjectData.model "B" pb]⟩,
         [some ⟨ObjectData.model "A" pa, wA⟩,
          some ⟨ObjectData.model "B" pb, wB⟩]⟩ st
        ⟨[ObjectData.model "B" pb', ObjectData.model "A" pa',
          ObjectData.model "C" pc]⟩ = some seq' ∧
      seq'.m_objects =
        [some ⟨ObjectData.model "B" pb', wB⟩,
         some ⟨ObjectData.model "A" pa', wA⟩,
         some ⟨ObjectData.model "C" pc, none⟩] ∧
      seq'.m_data = ⟨[ObjectData.model "B" pb', ObjectData.model "A" pa',
        ObjectData.model "C" pc]⟩ := by
  refine ⟨[("A", wA), ("B", wB)],
    ⟨⟨[ObjectData.model "B" pb', ObjectData.model "A" pa',
        ObjectData.model "C" pc]⟩,
      [some ⟨ObjectData.model "B" pb', wB⟩,
       some ⟨ObjectData.model "A" pa', wA⟩,
       some ⟨ObjectData.model "C" pc, none⟩]⟩, ?_, ?_, rfl, rfl⟩
  · rfl
  · rfl

/-- C7 counterexample: a record whose runtime type is unrecognized does
contribute an element to the rebuilt child list — a null one — rather
than being skipped with no element. -/
theorem rebuild_unrecognized_yields_null_element :
    Sequence.initFromData unrecognizedData ≠ [] ∧
    Sequence.initFromData unrecognizedData = [none] := by
  constructor
  · decide
  · rfl

/-- C7 (amended): a `Sequence` rebuild produces exactly one element per
record of the data — a freshly constructed wrapper (no bound state) for a
record whose runtime type is recognized, and a null element for an
unrecognized record. -/
theorem rebuild_one_element_per_record (data : Data) :
    (Sequence.initFromData data).length = data.objects.length ∧
    ∀ (i : Nat) (od : ObjectData), data.objects[i]? = some od →
      ((recognized od = true →
        (Sequence.initFromData data)[i]? =
          some (some { m_data := od, m_wrapped := none })) ∧
       (recognized od = false →
        (Sequence.initFromData data)[i]? = some none)) := by
  unfold Sequence.initFromData
  refine ⟨List.length_map _ _, ?_⟩
  intro i od hod
  rw [List.getElem?_map, hod]
  cases od <;> simp [recognized, Option.map]

/-- Witness for C7 (amended): data with a recognized record at index 0 and
an unrecognized one at index 1. -/
theorem rebuild_one_element_per_record_witness :
    (Sequence.initFromData mixedData)[0]? =
      some (some ⟨ObjectData.model "M" [], none⟩) ∧
    (Sequence.initFromData mixedData)[1]? = some none :=
  ⟨((rebuild_one_element_per_record mixedData).2 0
      (ObjectData.model "M" []) rfl).1 rfl,
   ((rebuild_one_element_per_record mixedData).2 1
      (ObjectData.plain "X") rfl).2 rfl⟩
